import Mathlib

/-!
Verification of the Poisson-disc sampler core of the `doodles` repository.

The embedding models `doodles_lib/src/algorithms/poisson_disc.rs` (the main
variant), `doodles_lib/src/geometry/coordinates.rs` and
`doodles_lib/src/rand.rs`, together with the older variant
`doodles_lib/src/poisson_disc.rs` where a claim compares the two.

Modelling conventions:
* `f32` values are modelled as exact rationals (`ℚ`); `f32` operations that
  stay inside the rationals (add, sub, mul, div, floor, ceil, comparisons)
  are modelled exactly, and `sqrt` (used by `distance` and by the cell-size
  computation) is modelled by `Real.sqrt` on the cast to `ℝ`.  NaN/infinity
  behaviour of `f32` is outside the model; no claim below is settled on it.
* Rust panics (out-of-bounds `Vec` indexing, out-of-bounds `ndarray`
  slicing) are modelled by `Except RustPanic`.
* The ambient thread-local RNG is modelled by oracle arguments: each call
  site that draws randomness receives the drawn values as parameters
  (`u` for `random::<f32>()`, `u, v` for `gen_range` inside
  `random_from_domain`, and a stream `offs` of offset vectors for
  `random_from_magnitude_range`).  The range contract of a draw
  (`u ∈ [0,1)`, offset magnitude in `[r, 2r]`) appears as a hypothesis of
  the theorems that need it.
-/

namespace Doodles

/-- `nannou::geom::Point2`, coordinates modelled as exact rationals. -/
structure Point where
  x : ℚ
  y : ℚ
deriving DecidableEq

/-- `Point2::add` (the `std::ops::Add` instance used in `sample`):
componentwise addition. -/
def Point.addP (p q : Point) : Point :=
  ⟨p.x + q.x, p.y + q.y⟩

/-- Squared Euclidean distance between two points (exact in `ℚ`). -/
def dist2 (p q : Point) : ℚ :=
  (p.x - q.x) ^ 2 + (p.y - q.y) ^ 2

/-- `MetricSpace::distance` of `nannou`/`cgmath`: the Euclidean distance,
`sqrt` of the sum of squared coordinate differences. -/
noncomputable def Point.dist (p q : Point) : ℝ :=
  Real.sqrt ((dist2 p q : ℚ) : ℝ)

/-- `nannou::geom::Rect`, recorded through the accessors the sampler code
uses (`left()`, `right()`, `bottom()`, `top()`).  A well-formed rect has
`left ≤ right` and `bottom ≤ top`; the well-formedness hypotheses appear on
the theorems that need them. -/
structure Rect where
  left : ℚ
  right : ℚ
  bottom : ℚ
  top : ℚ
deriving DecidableEq

/-- `Rect::w()`: the width. -/
def Rect.w (r : Rect) : ℚ := r.right - r.left

/-- `Rect::h()`: the height. -/
def Rect.h (r : Rect) : ℚ := r.top - r.bottom

/-- `Rect::contains(point)`: both coordinates inside the closed ranges. -/
def Rect.containsP (r : Rect) (p : Point) : Prop :=
  r.left ≤ p.x ∧ p.x ≤ r.right ∧ r.bottom ≤ p.y ∧ p.y ≤ r.top

instance (r : Rect) (p : Point) : Decidable (r.containsP p) :=
  inferInstanceAs (Decidable (_ ∧ _ ∧ _ ∧ _))

/-- `nannou::math::map_range`:
`(val - in_min) / (in_max - in_min) * (out_max - out_min) + out_min`. -/
def mapRange (val inMin inMax outMin outMax : ℚ) : ℚ :=
  (val - inMin) / (inMax - inMin) * (outMax - outMin) + outMin

/-- `geometry::coordinates::convert_to_upper_left_origin`:
`map_range` of each coordinate from the plane's native ranges onto
`[0, w] × [0, h]`. -/
def convertToUpperLeftOrigin (p : Point) (plane : Rect) : Point :=
  ⟨mapRange p.x plane.left plane.right 0 plane.w,
   mapRange p.y plane.bottom plane.top 0 plane.h⟩

/-- `Samplable::random_from_domain` for `Point2`, modelled through the
contract of `gen_range(left..=right)` / `gen_range(bottom..=top)`: for
oracle values `u, v ∈ [0, 1]` it produces the corresponding convex
combination, which ranges exactly over the closed rectangle. -/
def randomFromDomain (domain : Rect) (u v : ℚ) : Point :=
  ⟨domain.left + u * domain.w, domain.bottom + v * domain.h⟩

/-- A Rust panic arising inside the sampler. -/
inductive RustPanic where
  /-- out-of-bounds index into the `ndarray` grid (`slice`/`slice_mut`). -/
  | arrayIndexOutOfBounds
  /-- out-of-bounds index into the `active_points` vector. -/
  | vecIndexOutOfBounds
deriving DecidableEq

/-- The `Grid` struct of `algorithms/poisson_disc.rs`: a `cell_size`, the
domain, and a `w × h` array of optional points (the array is modelled as a
total function together with its bounds `gw`, `gh`). -/
structure Grid where
  cellSize : ℚ
  domain : Rect
  gw : ℕ
  gh : ℕ
  cells : ℕ → ℕ → Option Point

/-- `Grid::new`: dimensions `ceil(domain.w / cell_size)` and
`ceil(domain.h / cell_size)` (the `as usize` cast saturates negatives to 0,
modelled by `Int.toNat`), all cells empty. -/
def Grid.new (cellSize : ℚ) (domain : Rect) : Grid :=
  { cellSize := cellSize
    domain := domain
    gw := (⌈domain.w / cellSize⌉).toNat
    gh := (⌈domain.h / cellSize⌉).toNat
    cells := fun _ _ => none }

/-- `Grid::calculate_grid_indices`: convert to the normalized space, divide
by `cell_size`, floor, cast `as usize` (saturating at 0 for negatives). -/
def Grid.calculateGridIndices (g : Grid) (p : Point) : ℕ × ℕ :=
  let c := convertToUpperLeftOrigin p g.domain
  ((⌊c.x / g.cellSize⌋).toNat, (⌊c.y / g.cellSize⌋).toNat)

/-- `Grid::insert`: store the point at its computed cell, overwriting any
prior occupant; an out-of-range index makes the `ndarray` slicing panic. -/
def Grid.insert (g : Grid) (p : Point) : Except RustPanic Grid :=
  let idx := g.calculateGridIndices p
  if idx.1 < g.gw ∧ idx.2 < g.gh then
    .ok { g with
          cells := fun a b =>
            if a = idx.1 ∧ b = idx.2 then some p else g.cells a b }
  else .error .arrayIndexOutOfBounds

/-- The `SampleStatus` enum. -/
inductive SampleStatus where
  | Valid
  | Invalid
deriving DecidableEq

/-- The `PoissonDiscSampler` struct of `algorithms/poisson_disc.rs`. -/
structure PoissonDiscSampler where
  r : ℚ
  k : ℕ
  grid : Grid
  activePoints : List Point

/-- The cell size computed in `PoissonDiscSampler::new`:
`(r / (N as f32).sqrt()).floor()` with `N = 2`.  The result is an integer
value (stored as `f32` in the source); we record it as `ℤ`. -/
noncomputable def cellSizeOf (r : ℚ) : ℤ :=
  ⌊(r : ℝ) / Real.sqrt 2⌋

/-- `PoissonDiscSampler::new`: compute the cell size, build the grid, draw
the seed by `random_from_domain` (oracle values `u, v`), insert it into the
grid and seed the active list.  No validation of `domain`, `r` or `k` is
performed; the only way construction can fail is the grid insertion of the
seed panicking. -/
noncomputable def PoissonDiscSampler.new (domain : Rect) (r : ℚ) (k : ℕ)
    (u v : ℚ) : Except RustPanic PoissonDiscSampler :=
  let cellSize : ℚ := (cellSizeOf r : ℚ)
  let grid := Grid.new cellSize domain
  let p := randomFromDomain domain u v
  match grid.insert p with
  | .error e => .error e
  | .ok g => .ok { r := r, k := k, grid := g, activePoints := [p] }

/-- One cell of the neighbourhood scan in
`algorithms/poisson_disc.rs::check_point`: empty, or its occupant has
Euclidean distance `>= r` to the candidate. -/
def cellFarD (r : ℚ) (p : Point) : Option Point → Prop
  | none => True
  | some q => (r : ℝ) ≤ Point.dist q p

/-- The validity test of `check_point`: the candidate is inside the domain
and every cell of the 3×3 window around its cell (window bounds clamped by
`checked_sub`/`min` exactly as in the source) is `cellFarD`. -/
def checkPointValid (s : PoissonDiscSampler) (p : Point) : Prop :=
  s.grid.domain.containsP p ∧
    ∀ i ∈ Finset.Icc ((s.grid.calculateGridIndices p).1 - 1)
        (min ((s.grid.calculateGridIndices p).1 + 1) (s.grid.gw - 1)),
      ∀ j ∈ Finset.Icc ((s.grid.calculateGridIndices p).2 - 1)
          (min ((s.grid.calculateGridIndices p).2 + 1) (s.grid.gh - 1)),
        cellFarD s.r p (s.grid.cells i j)

open Classical in
/-- `PoissonDiscSampler::check_point` of `algorithms/poisson_disc.rs`. -/
noncomputable def checkPoint (s : PoissonDiscSampler) (p : Point) :
    SampleStatus :=
  if checkPointValid s p then .Valid else .Invalid

/-- The number of candidate attempts the `loop` in `sample` performs: `k`
attempts for `k ≥ 1`.  For `k = 0` the `counter == self.k` test first
succeeds when the `u8` counter wraps around to 0 after 256 increments
(release-mode wrapping arithmetic), so 256 candidates are tried. -/
def effAttempts (k : ℕ) : ℕ :=
  if k = 0 then 256 else k

/-- The candidate `loop` of `sample`: try candidates `pivot + offs i`,
`pivot + offs (i+1)`, …, returning the first valid one, or `none` once
`fuel` attempts are exhausted. -/
noncomputable def sampleLoop (s : PoissonDiscSampler) (pivot : Point)
    (offs : ℕ → Point) : ℕ → ℕ → Option Point
  | _, 0 => none
  | i, fuel + 1 =>
    match checkPoint s (pivot.addP (offs i)) with
    | .Valid => some (pivot.addP (offs i))
    | .Invalid => sampleLoop s pivot offs (i + 1) fuel

/-- `PoissonDiscSampler::sample`.  Oracle arguments: `u` is the
`random::<f32>()` draw used for pivot selection, `offs i` is the offset
vector produced by `random_from_magnitude_range` at attempt `i`.
Indexing `active_points` out of range panics; so does inserting an accepted
point whose cell index falls outside the grid. -/
noncomputable def PoissonDiscSampler.sample (s : PoissonDiscSampler)
    (u : ℚ) (offs : ℕ → Point) :
    Except RustPanic (Option Point × PoissonDiscSampler) :=
  let index := (⌊u * (s.activePoints.length : ℚ)⌋).toNat
  if h : index < s.activePoints.length then
    let pivot := s.activePoints.get ⟨index, h⟩
    match sampleLoop s pivot offs 0 (effAttempts s.k) with
    | none => .ok (none, { s with
        activePoints := s.activePoints.eraseIdx index })
    | some p =>
      match s.grid.insert p with
      | .error e => .error e
      | .ok g => .ok (some p, { s with
          grid := g
          activePoints := s.activePoints ++ [p] })
  else .error .vecIndexOutOfBounds

/-- `PoissonDiscSampler::is_finished`: the active list is empty. -/
def PoissonDiscSampler.isFinished (s : PoissonDiscSampler) : Bool :=
  s.activePoints.length == 0

/-- Repeatedly call `sample`, as the sketches drive the sampler: stop once
`is_finished` holds (callers check it before each call), propagate panics,
and perform at most `fuel` calls.  `rands n` supplies the oracle values of
call number `start + n`. -/
noncomputable def runFrom (rands : ℕ → ℚ × (ℕ → Point)) :
    ℕ → ℕ → PoissonDiscSampler → Except RustPanic PoissonDiscSampler
  | _, 0, s => .ok s
  | start, fuel + 1, s =>
    if s.isFinished then .ok s
    else
      match s.sample (rands start).1 (rands start).2 with
      | .error e => .error e
      | .ok (_, s1) => runFrom rands (start + 1) fuel s1

/-- One cell of the neighbourhood scan of the older
`poisson_disc.rs::check_point` variant: empty, or `!(distance < r)`. -/
def oldCellFarD (r : ℚ) (p : Point) : Option Point → Prop
  | none => True
  | some q => ¬(Point.dist q p < (r : ℝ))

/-- The validity test of the older `poisson_disc.rs::check_point`,
on identical grid contents and with the identical cell indexing (the two
variants share the `map_range`-based index computation); it differs from
the newer variant only in writing the distance test as `!(d < r)`. -/
def oldCheckPointValid (s : PoissonDiscSampler) (p : Point) : Prop :=
  s.grid.domain.containsP p ∧
    ∀ i ∈ Finset.Icc ((s.grid.calculateGridIndices p).1 - 1)
        (min ((s.grid.calculateGridIndices p).1 + 1) (s.grid.gw - 1)),
      ∀ j ∈ Finset.Icc ((s.grid.calculateGridIndices p).2 - 1)
          (min ((s.grid.calculateGridIndices p).2 + 1) (s.grid.gh - 1)),
        oldCellFarD s.r p (s.grid.cells i j)

open Classical in
/-- `PoissonDiscSampler::check_point` of the older `poisson_disc.rs`. -/
noncomputable def oldCheckPoint (s : PoissonDiscSampler) (p : Point) :
    SampleStatus :=
  if oldCheckPointValid s p then .Valid else .Invalid

/-! ### Decidable characterization of the validity test -/

/-- Squared-distance form of `cellFarD`, decidable over `ℚ`. -/
def cellFarQ (r2 : ℚ) (p : Point) : Option Point → Prop
  | none => True
  | some q => r2 ≤ dist2 q p

instance (r2 : ℚ) (p : Point) : (o : Option Point) →
    Decidable (cellFarQ r2 p o)
  | none => isTrue trivial
  | some q => inferInstanceAs (Decidable (r2 ≤ dist2 q p))

/-- Squared-distance form of `checkPointValid`, decidable over `ℚ`. -/
def checkPointValidQ (s : PoissonDiscSampler) (p : Point) : Prop :=
  s.grid.domain.containsP p ∧
    ∀ i ∈ Finset.Icc ((s.grid.calculateGridIndices p).1 - 1)
        (min ((s.grid.calculateGridIndices p).1 + 1) (s.grid.gw - 1)),
      ∀ j ∈ Finset.Icc ((s.grid.calculateGridIndices p).2 - 1)
          (min ((s.grid.calculateGridIndices p).2 + 1) (s.grid.gh - 1)),
        cellFarQ (s.r ^ 2) p (s.grid.cells i j)

instance (s : PoissonDiscSampler) (p : Point) :
    Decidable (checkPointValidQ s p) :=
  inferInstanceAs (Decidable (_ ∧ _))

theorem dist2_nonneg (p q : Point) : 0 ≤ dist2 p q :=
  add_nonneg (sq_nonneg _) (sq_nonneg _)

theorem dist_nonneg' (p q : Point) : 0 ≤ Point.dist p q :=
  Real.sqrt_nonneg _

/-- `d ≥ r` on real distances is `d² ≥ r²` on rational squared distances,
for non-negative `r`. -/
theorem cellFarD_iff {r : ℚ} (hr : 0 ≤ r) (p : Point) (o : Option Point) :
    cellFarD r p o ↔ cellFarQ (r ^ 2) p o := by
  cases o with
  | none => simp [cellFarD, cellFarQ]
  | some q =>
    simp only [cellFarD, cellFarQ, Point.dist]
    rw [Real.le_sqrt (by exact_mod_cast hr) (by exact_mod_cast dist2_nonneg q p)]
    exact_mod_cast Iff.rfl

theorem checkPointValid_iff {s : PoissonDiscSampler} (hr : 0 ≤ s.r)
    (p : Point) : checkPointValid s p ↔ checkPointValidQ s p := by
  unfold checkPointValid checkPointValidQ
  refine and_congr_right fun _ => ?_
  constructor
  · intro h i hi j hj
    exact (cellFarD_iff hr p _).1 (h i hi j hj)
  · intro h i hi j hj
    exact (cellFarD_iff hr p _).2 (h i hi j hj)

theorem checkPoint_eq_Valid_iff (s : PoissonDiscSampler) (p : Point) :
    checkPoint s p = .Valid ↔ checkPointValid s p := by
  by_cases h : checkPointValid s p <;> simp [checkPoint, h]

theorem checkPoint_eq_Invalid_iff (s : PoissonDiscSampler) (p : Point) :
    checkPoint s p = .Invalid ↔ ¬checkPointValid s p := by
  by_cases h : checkPointValid s p <;> simp [checkPoint, h]

/-! ### Unfolding lemmas for the candidate loop -/

theorem sampleLoop_succ_valid {s : PoissonDiscSampler} {pivot : Point}
    {offs : ℕ → Point} {i fuel : ℕ}
    (h : checkPointValid s (pivot.addP (offs i))) :
    sampleLoop s pivot offs i (fuel + 1) = some (pivot.addP (offs i)) := by
  have hv : checkPoint s (pivot.addP (offs i)) = .Valid :=
    (checkPoint_eq_Valid_iff s _).2 h
  simp [sampleLoop, hv]

theorem sampleLoop_succ_invalid {s : PoissonDiscSampler} {pivot : Point}
    {offs : ℕ → Point} {i fuel : ℕ}
    (h : ¬checkPointValid s (pivot.addP (offs i))) :
    sampleLoop s pivot offs i (fuel + 1) = sampleLoop s pivot offs (i + 1) fuel := by
  have hv : checkPoint s (pivot.addP (offs i)) = .Invalid :=
    (checkPoint_eq_Invalid_iff s _).2 h
  simp [sampleLoop, hv]

/-- Whatever the candidate loop returns passed the validity test. -/
theorem sampleLoop_some_valid {s : PoissonDiscSampler} {pivot : Point}
    {offs : ℕ → Point} {p : Point} :
    ∀ {fuel i : ℕ}, sampleLoop s pivot offs i fuel = some p →
      checkPointValid s p := by
  intro fuel
  induction fuel with
  | zero => intro i h; simp [sampleLoop] at h
  | succ n ih =>
    intro i h
    by_cases hv : checkPointValid s (pivot.addP (offs i))
    · rw [sampleLoop_succ_valid hv] at h
      cases h; exact hv
    · rw [sampleLoop_succ_invalid hv] at h
      exact ih h

/-- If every attempt is invalid, the candidate loop yields `none`. -/
theorem sampleLoop_none {s : PoissonDiscSampler} {pivot : Point}
    {offs : ℕ → Point} :
    ∀ {fuel i : ℕ},
      (∀ j, j < fuel → ¬checkPointValid s (pivot.addP (offs (i + j)))) →
      sampleLoop s pivot offs i fuel = none := by
  intro fuel
  induction fuel with
  | zero => intro i _; rfl
  | succ n ih =>
    intro i h
    rw [sampleLoop_succ_invalid (by simpa using h 0 n.succ_pos)]
    exact ih fun j hj' => by
      have := h (j + 1) (by omega)
      simpa [Nat.add_assoc, Nat.add_comm 1 j] using this

/-- The candidate loop returns the first valid candidate: if the attempts
before `n` are invalid and attempt `n` is valid, the result is candidate
`n`. -/
theorem sampleLoop_first {s : PoissonDiscSampler} {pivot : Point}
    {offs : ℕ → Point} :
    ∀ {n fuel i : ℕ}, n < fuel →
      (∀ j, j < n → ¬checkPointValid s (pivot.addP (offs (i + j)))) →
      checkPointValid s (pivot.addP (offs (i + n))) →
      sampleLoop s pivot offs i fuel = some (pivot.addP (offs (i + n))) := by
  intro n
  induction n with
  | zero =>
    intro fuel i hn _ hv
    obtain ⟨m, rfl⟩ := Nat.exists_eq_succ_of_ne_zero (Nat.pos_iff_ne_zero.1 hn)
    simpa using sampleLoop_succ_valid (by simpa using hv)
  | succ n ih =>
    intro fuel i hn hinv hv
    obtain ⟨m, rfl⟩ := Nat.exists_eq_succ_of_ne_zero
      (Nat.pos_iff_ne_zero.1 (Nat.lt_of_le_of_lt (Nat.zero_le _) hn))
    rw [sampleLoop_succ_invalid (by simpa using hinv 0 n.succ_pos)]
    have := @ih m (i + 1) (by omega)
      (fun j hj => by
        have := hinv (j + 1) (by omega)
        simpa [Nat.add_assoc, Nat.add_comm 1 j] using this)
      (by simpa [Nat.add_assoc, Nat.add_comm 1 n] using hv)
    simpa [Nat.add_assoc, Nat.add_comm 1 n] using this

/-! ### Evaluating the cell size -/

/-- Characterize `⌊r / √2⌋` by rational inequalities on `r²`. -/
theorem cellSizeOf_eq {q : ℚ} {n : ℕ} (hq : 0 ≤ q)
    (h1 : 2 * (n : ℚ) ^ 2 ≤ q ^ 2) (h2 : q ^ 2 < 2 * ((n : ℚ) + 1) ^ 2) :
    cellSizeOf q = n := by
  have hq' : (0 : ℝ) ≤ (q : ℝ) := by exact_mod_cast hq
  have hrw : (q : ℝ) / Real.sqrt 2 = Real.sqrt ((q : ℝ) ^ 2 / 2) := by
    rw [Real.sqrt_div (by positivity) 2, Real.sqrt_sq hq']
  unfold cellSizeOf
  rw [hrw, Int.floor_eq_iff]
  constructor
  · rw [Real.le_sqrt (by positivity) (by positivity)]
    have h1' : 2 * ((n : ℝ)) ^ 2 ≤ (q : ℝ) ^ 2 := by exact_mod_cast h1
    push_cast
    nlinarith [h1']
  · rw [Real.sqrt_lt' (by positivity)]
    have h2' : ((q : ℝ)) ^ 2 < 2 * ((n : ℝ) + 1) ^ 2 := by exact_mod_cast h2
    push_cast
    nlinarith [h2']

/-! ### Evaluation lemmas for concrete runs -/

theorem calculateGridIndices_eq {g : Grid} {p : Point} {i j : ℕ}
    (hx : ⌊(convertToUpperLeftOrigin p g.domain).x / g.cellSize⌋ = (i : ℤ))
    (hy : ⌊(convertToUpperLeftOrigin p g.domain).y / g.cellSize⌋ = (j : ℤ)) :
    g.calculateGridIndices p = (i, j) := by
  unfold Grid.calculateGridIndices
  simp only []
  rw [hx, hy]
  simp

theorem Grid.insert_eval {g : Grid} {p : Point} {i j : ℕ}
    (hij : g.calculateGridIndices p = (i, j)) (hi : i < g.gw) (hj : j < g.gh) :
    g.insert p = .ok { g with
      cells := fun a b => if a = i ∧ b = j then some p else g.cells a b } := by
  unfold Grid.insert
  rw [hij]
  simp [hi, hj]

theorem Grid.insert_panic {g : Grid} {p : Point} {i j : ℕ}
    (hij : g.calculateGridIndices p = (i, j)) (h : ¬(i < g.gw ∧ j < g.gh)) :
    g.insert p = .error .arrayIndexOutOfBounds := by
  unfold Grid.insert
  rw [hij]
  simp [h]

theorem sample_eval_accept {s : PoissonDiscSampler} {u : ℚ}
    {offs : ℕ → Point} {idx : ℕ} {c : Point} {g : Grid}
    (hidx : (⌊u * (s.activePoints.length : ℚ)⌋).toNat = idx)
    (hlt : idx < s.activePoints.length)
    (hloop : sampleLoop s (s.activePoints.get ⟨idx, hlt⟩) offs 0
      (effAttempts s.k) = some c)
    (hins : s.grid.insert c = .ok g) :
    s.sample u offs = .ok (some c, { s with
      grid := g
      activePoints := s.activePoints ++ [c] }) := by
  unfold PoissonDiscSampler.sample
  rw [hidx, dif_pos hlt]
  simp only []
  rw [hloop]
  simp only []
  rw [hins]

theorem sample_eval_reject {s : PoissonDiscSampler} {u : ℚ}
    {offs : ℕ → Point} {idx : ℕ}
    (hidx : (⌊u * (s.activePoints.length : ℚ)⌋).toNat = idx)
    (hlt : idx < s.activePoints.length)
    (hloop : sampleLoop s (s.activePoints.get ⟨idx, hlt⟩) offs 0
      (effAttempts s.k) = none) :
    s.sample u offs = .ok (none, { s with
      activePoints := s.activePoints.eraseIdx idx }) := by
  unfold PoissonDiscSampler.sample
  rw [hidx, dif_pos hlt]
  simp only []
  rw [hloop]

/-- `sample` on an empty active list reads `active_points[0]` out of
bounds. -/
theorem sample_eval_empty {s : PoissonDiscSampler} {u : ℚ}
    {offs : ℕ → Point} (h : s.activePoints = []) :
    s.sample u offs = .error .vecIndexOutOfBounds := by
  unfold PoissonDiscSampler.sample
  rw [h]
  simp

theorem new_eval {domain : Rect} {r : ℚ} {k : ℕ} {u v : ℚ} {cs : ℤ}
    {g : Grid} (hcs : cellSizeOf r = cs)
    (hins : (Grid.new (cs : ℚ) domain).insert (randomFromDomain domain u v) =
      .ok g) :
    PoissonDiscSampler.new domain r k u v =
      .ok { r := r, k := k, grid := g,
            activePoints := [randomFromDomain domain u v] } := by
  unfold PoissonDiscSampler.new
  simp only []
  rw [hcs]
  rw [hins]

theorem new_eval_panic {domain : Rect} {r : ℚ} {k : ℕ} {u v : ℚ} {cs : ℤ}
    {e : RustPanic} (hcs : cellSizeOf r = cs)
    (hins : (Grid.new (cs : ℚ) domain).insert (randomFromDomain domain u v) =
      .error e) :
    PoissonDiscSampler.new domain r k u v = .error e := by
  unfold PoissonDiscSampler.new
  simp only []
  rw [hcs]
  rw [hins]

theorem runFrom_succ_step {rands : ℕ → ℚ × (ℕ → Point)} {start fuel : ℕ}
    {s s1 : PoissonDiscSampler} {res : Option Point}
    (hnf : s.isFinished = false)
    (hs : s.sample (rands start).1 (rands start).2 = .ok (res, s1)) :
    runFrom rands start (fuel + 1) s = runFrom rands (start + 1) fuel s1 := by
  conv_lhs => unfold runFrom
  rw [hnf, hs]
  simp

theorem runFrom_finished {rands : ℕ → ℚ × (ℕ → Point)} {start fuel : ℕ}
    {s : PoissonDiscSampler} (hf : s.isFinished = true) :
    runFrom rands start (fuel + 1) s = .ok s := by
  conv_lhs => unfold runFrom
  rw [hf]
  simp

theorem floor_q_eq {a : ℚ} {n : ℕ} (h1 : (n : ℚ) ≤ a) (h2 : a < n + 1) :
    ⌊a⌋ = (n : ℤ) := by
  rw [Int.floor_eq_iff]
  exact ⟨by exact_mod_cast h1, by exact_mod_cast h2⟩

theorem ceil_q_eq {a : ℚ} {n : ℕ} (h1 : (n : ℚ) - 1 < a) (h2 : a ≤ n) :
    ⌈a⌉ = (n : ℤ) := by
  rw [Int.ceil_eq_iff]
  exact ⟨by exact_mod_cast h1, by exact_mod_cast h2⟩

theorem Grid.new_unfold {cs : ℚ} {domain : Rect} {w h : ℕ}
    (hw : ⌈domain.w / cs⌉ = (w : ℤ)) (hh : ⌈domain.h / cs⌉ = (h : ℤ)) :
    Grid.new cs domain =
      { cellSize := cs, domain := domain, gw := w, gh := h,
        cells := fun _ _ => none } := by
  unfold Grid.new
  rw [hw, hh]
  simp

/-! ### A concrete run violating the minimum-distance invariant

With `r = 10` the cell size is `⌊10/√2⌋ = 7`, and a stored point can be
two grid columns away from a candidate yet closer than `r` to it; the 3×3
window of `check_point` never examines it.  The run below reaches exactly
that situation: the seed is `(6.9, 35)`; the first call accepts
`(6.9, 50)` (distance 15 from the seed); the second call, pivoting on
`(6.9, 50)`, accepts `(15, 35)` — whose distance to the seed is only
`8.1 < 10`.  Every random draw used is realizable: the pivot draws are in
`[0, 1)` and both offsets have magnitude within `[r, 2r]`. -/

/-- The 70×70 test domain. -/
def d70 : Rect := ⟨0, 70, 0, 70⟩

/-- Seed point of the violating run. -/
def ptA : Point := ⟨69 / 10, 35⟩

/-- First accepted point (offset `(0, 15)` from the seed). -/
def ptC : Point := ⟨69 / 10, 50⟩

/-- Second accepted point (offset `(8.1, -15)` from `ptC`); it is only
`8.1` away from the seed `ptA`. -/
def ptB : Point := ⟨15, 35⟩

/-- Offset stream of the first call. -/
def offsC : ℕ → Point := fun _ => ⟨0, 15⟩

/-- Offset stream of the second call. -/
def offsB : ℕ → Point := fun _ => ⟨81 / 10, -15⟩

/-- The freshly built 10×10 grid over `d70` with cell size 7. -/
def gEmpty : Grid :=
  { cellSize := 7, domain := d70, gw := 10, gh := 10,
    cells := fun _ _ => none }

/-- Grid after inserting the seed (cell `(0, 5)`). -/
def gA : Grid :=
  { gEmpty with cells := fun a b =>
      if a = 0 ∧ b = 5 then some ptA else none }

/-- Grid after additionally inserting `ptC` (cell `(0, 7)`). -/
def gAC : Grid :=
  { gEmpty with cells := fun a b =>
      if a = 0 ∧ b = 7 then some ptC else gA.cells a b }

/-- Grid after additionally inserting `ptB` (cell `(2, 5)`). -/
def gACB : Grid :=
  { gEmpty with cells := fun a b =>
      if a = 2 ∧ b = 5 then some ptB else gAC.cells a b }

/-- Sampler state after construction. -/
def sA : PoissonDiscSampler :=
  { r := 10, k := 1, grid := gA, activePoints := [ptA] }

/-- Sampler state after the first call. -/
def sAC : PoissonDiscSampler :=
  { r := 10, k := 1, grid := gAC, activePoints := [ptA, ptC] }

/-- Sampler state after the second call. -/
def sACB : PoissonDiscSampler :=
  { r := 10, k := 1, grid := gACB, activePoints := [ptA, ptC, ptB] }

theorem cellSizeOf_ten : cellSizeOf 10 = 7 :=
  cellSizeOf_eq (by norm_num) (by norm_num) (by norm_num)

theorem gEmpty_new : Grid.new 7 d70 = gEmpty :=
  Grid.new_unfold (w := 10) (h := 10)
    (ceil_q_eq (by norm_num [d70, Rect.w]) (by norm_num [d70, Rect.w]))
    (ceil_q_eq (by norm_num [d70, Rect.h]) (by norm_num [d70, Rect.h]))

theorem idxA : gEmpty.calculateGridIndices ptA = (0, 5) :=
  calculateGridIndices_eq
    (floor_q_eq (n := 0)
      (by norm_num [gEmpty, convertToUpperLeftOrigin, mapRange, d70,
        Rect.w, Rect.h, ptA])
      (by norm_num [gEmpty, convertToUpperLeftOrigin, mapRange, d70,
        Rect.w, Rect.h, ptA]))
    (floor_q_eq (n := 5)
      (by norm_num [gEmpty, convertToUpperLeftOrigin, mapRange, d70,
        Rect.w, Rect.h, ptA])
      (by norm_num [gEmpty, convertToUpperLeftOrigin, mapRange, d70,
        Rect.w, Rect.h, ptA]))

theorem newA : PoissonDiscSampler.new d70 10 1 (69 / 700) (1 / 2) =
    .ok sA := by
  have hseed : randomFromDomain d70 (69 / 700) (1 / 2) = ptA := by
    norm_num [randomFromDomain, d70, Rect.w, Rect.h, ptA]
  have h1 : ((cellSizeOf 10 : ℤ) : ℚ) = 7 := by
    rw [cellSizeOf_ten]; norm_num
  unfold PoissonDiscSampler.new
  simp only []
  rw [h1, gEmpty_new, hseed,
    Grid.insert_eval idxA (by norm_num [gEmpty]) (by norm_num [gEmpty])]
  rfl

theorem idx_toNat_eq {u : ℚ} {len n : ℕ} (h1 : (n : ℚ) ≤ u * len)
    (h2 : u * len < n + 1) : (⌊u * (len : ℚ)⌋).toNat = n := by
  rw [floor_q_eq h1 h2]
  simp

theorem idxC : gEmpty.calculateGridIndices ptC = (0, 7) :=
  calculateGridIndices_eq
    (floor_q_eq (n := 0)
      (by norm_num [gEmpty, convertToUpperLeftOrigin, mapRange, d70,
        Rect.w, Rect.h, ptC])
      (by norm_num [gEmpty, convertToUpperLeftOrigin, mapRange, d70,
        Rect.w, Rect.h, ptC]))
    (floor_q_eq (n := 7)
      (by norm_num [gEmpty, convertToUpperLeftOrigin, mapRange, d70,
        Rect.w, Rect.h, ptC])
      (by norm_num [gEmpty, convertToUpperLeftOrigin, mapRange, d70,
        Rect.w, Rect.h, ptC]))

theorem idxB : gEmpty.calculateGridIndices ptB = (2, 5) :=
  calculateGridIndices_eq
    (floor_q_eq (n := 2)
      (by norm_num [gEmpty, convertToUpperLeftOrigin, mapRange, d70,
        Rect.w, Rect.h, ptB])
      (by norm_num [gEmpty, convertToUpperLeftOrigin, mapRange, d70,
        Rect.w, Rect.h, ptB]))
    (floor_q_eq (n := 5)
      (by norm_num [gEmpty, convertToUpperLeftOrigin, mapRange, d70,
        Rect.w, Rect.h, ptB])
      (by norm_num [gEmpty, convertToUpperLeftOrigin, mapRange, d70,
        Rect.w, Rect.h, ptB]))

/-- `(6.9, 50)` passes the validity test on the seeded sampler: its 3×3
window (columns 0–1, rows 6–8) contains no occupied cell. -/
theorem validC : checkPointValid sA ptC := by
  refine ⟨by norm_num [sA, gA, gEmpty, d70, Rect.containsP, ptC], ?_⟩
  have hidx : sA.grid.calculateGridIndices ptC = (0, 7) := idxC
  have hgw : sA.grid.gw = 10 := rfl
  have hgh : sA.grid.gh = 10 := rfl
  rw [hidx, hgw, hgh]
  intro i hi j hj
  simp only [Finset.mem_Icc] at hi hj
  norm_num at hi hj
  have hcells : sA.grid.cells i j = none := by
    have h : sA.grid.cells = gA.cells := rfl
    rw [h]
    simp only [gA]
    rw [if_neg (by omega)]
  rw [hcells]
  trivial

/-- `(15, 35)` passes the validity test on the two-point sampler: its 3×3
window (columns 1–3, rows 4–6) contains no occupied cell — in particular
it misses the seed `(6.9, 35)` in column 0, even though that point is at
distance `8.1 < r` from the candidate. -/
theorem validB : checkPointValid sAC ptB := by
  refine ⟨by norm_num [sAC, gAC, gEmpty, d70, Rect.containsP, ptB], ?_⟩
  have hidx : sAC.grid.calculateGridIndices ptB = (2, 5) := idxB
  have hgw : sAC.grid.gw = 10 := rfl
  have hgh : sAC.grid.gh = 10 := rfl
  rw [hidx, hgw, hgh]
  intro i hi j hj
  simp only [Finset.mem_Icc] at hi hj
  norm_num at hi hj
  have hcells : sAC.grid.cells i j = none := by
    have h : sAC.grid.cells = gAC.cells := rfl
    rw [h]
    simp only [gAC, gA]
    rw [if_neg (by omega), if_neg (by omega)]
  rw [hcells]
  trivial

/-- First call on the violating run: pivot `ptA`, first candidate `ptC`
accepted. -/
theorem stepAC : sA.sample 0 offsC = .ok (some ptC, sAC) := by
  have haddC : ptA.addP (offsC 0) = ptC := by
    norm_num [Point.addP, ptA, ptC, offsC]
  have hfuel : effAttempts sA.k = 0 + 1 := rfl
  have hloop : sampleLoop sA ptA offsC 0 (effAttempts sA.k) = some ptC := by
    rw [hfuel, sampleLoop_succ_valid (by rw [haddC]; exact validC), haddC]
  have hins : sA.grid.insert ptC = .ok gAC := by
    show gA.insert ptC = .ok gAC
    have hix : gA.calculateGridIndices ptC = (0, 7) := idxC
    rw [Grid.insert_eval (i := 0) (j := 7) hix (by norm_num [gA, gEmpty])
      (by norm_num [gA, gEmpty])]
    rfl
  have h := sample_eval_accept (s := sA) (u := 0)
    (idx_toNat_eq (n := 0) (by norm_num) (by norm_num))
    (by norm_num [sA]) hloop hins
  exact h

/-- Second call on the violating run: pivot `ptC` (index 1), first
candidate `ptB` accepted. -/
theorem stepACB : sAC.sample (1 / 2) offsB = .ok (some ptB, sACB) := by
  have haddB : ptC.addP (offsB 0) = ptB := by
    norm_num [Point.addP, ptC, ptB, offsB]
  have hfuel : effAttempts sAC.k = 0 + 1 := rfl
  have hloop : sampleLoop sAC ptC offsB 0 (effAttempts sAC.k) = some ptB := by
    rw [hfuel, sampleLoop_succ_valid (by rw [haddB]; exact validB), haddB]
  have hins : sAC.grid.insert ptB = .ok gACB := by
    show gAC.insert ptB = .ok gACB
    have hix : gAC.calculateGridIndices ptB = (2, 5) := idxB
    rw [Grid.insert_eval (i := 2) (j := 5) hix (by norm_num [gAC, gEmpty])
      (by norm_num [gAC, gEmpty])]
    rfl
  have h := sample_eval_accept (s := sAC) (u := 1 / 2)
    (idx_toNat_eq (n := 1) (by norm_num [sAC]) (by norm_num [sAC]))
    (by norm_num [sAC]) hloop hins
  exact h

/-- The Euclidean distance between the seed and the second accepted point
is exactly `8.1`. -/
theorem dist_ptA_ptB : Point.dist ptA ptB = 81 / 10 := by
  have hd2 : dist2 ptA ptB = (81 / 10) ^ 2 := by
    norm_num [dist2, ptA, ptB]
  unfold Point.dist
  rw [hd2]
  push_cast
  rw [Real.sqrt_sq (by norm_num)]

/-- **C1** (code bug): with `r = 10` (cell size `⌊10/√2⌋ = 7`), a run of
the sampler using only realizable random draws (pivot draws in `[0,1)`,
offset magnitudes within `[r, 2r]`) returns, through `sample`, a point at
distance `8.1 < r` from the seed point: the 3×3-window validity check does
not enforce the claimed pairwise minimum-distance invariant, because a
stored point two grid columns away can still be closer than `r`. -/
theorem C1_min_distance_invariant_violated :
    PoissonDiscSampler.new d70 10 1 (69 / 700) (1 / 2) = .ok sA ∧
    sA.sample 0 offsC = .ok (some ptC, sAC) ∧
    sAC.sample (1 / 2) offsB = .ok (some ptB, sACB) ∧
    ptA ≠ ptB ∧
    Point.dist ptA ptB < (sACB.r : ℝ) ∧
    (0 ≤ (69 : ℚ) / 700 ∧ (69 : ℚ) / 700 < 1) ∧
    (0 ≤ (1 : ℚ) / 2 ∧ (1 : ℚ) / 2 < 1) ∧
    (sA.r ^ 2 ≤ dist2 ⟨0, 0⟩ (offsC 0) ∧
      dist2 ⟨0, 0⟩ (offsC 0) ≤ (2 * sA.r) ^ 2) ∧
    (sAC.r ^ 2 ≤ dist2 ⟨0, 0⟩ (offsB 0) ∧
      dist2 ⟨0, 0⟩ (offsB 0) ≤ (2 * sAC.r) ^ 2) := by
  refine ⟨newA, stepAC, stepACB, ?_, ?_, ?_, ?_, ?_, ?_⟩
  · intro h
    have : ptA.x = ptB.x := by rw [h]
    norm_num [ptA, ptB] at this
  · rw [dist_ptA_ptB]
    have hr : sACB.r = 10 := rfl
    rw [hr]
    norm_num
  · norm_num
  · norm_num
  · constructor <;> norm_num [dist2, offsC, sA]
  · constructor <;> norm_num [dist2, offsB, sAC]

/-! ### C5: positivity of the computed cell size -/

/-- **C5** (counterexample): `r = 1 > 0`, yet the computed cell size
`⌊1/√2⌋` is `0`, not positive. -/
theorem C5_cellSize_zero_for_small_r : (0 : ℚ) < 1 ∧ cellSizeOf 1 = 0 :=
  ⟨by norm_num,
   cellSizeOf_eq (by norm_num) (by norm_num) (by norm_num)⟩

/-- **C5** (amended): the cell size `⌊r/√2⌋` computed at construction is
positive exactly when `r ≥ √2`; for `0 < r < √2` it is zero (and the grid
dimension computation then divides by zero). -/
theorem C5_cellSize_positive_iff (r : ℚ) :
    1 ≤ cellSizeOf r ↔ Real.sqrt 2 ≤ (r : ℝ) := by
  unfold cellSizeOf
  rw [Int.le_floor]
  have h2 : (0 : ℝ) < Real.sqrt 2 := Real.sqrt_pos.2 (by norm_num)
  rw [show ((1 : ℤ) : ℝ) = 1 by norm_num, le_div_iff₀ h2, one_mul]

/-! ### C8: the grid-index coordinate convention -/

/-- The 40×40 Scenario-D domain. -/
def d40 : Rect := ⟨0, 40, 0, 40⟩

/-- The Scenario-D grid: `cellSize = 10` over `d40`. -/
def g40 : Grid := Grid.new 10 d40

/-- The grid-index computation as the claim describes it: x measured
rightward from the left edge, y measured downward from the top edge, each
divided by the cell size and floored.  (Stated only for comparison with
the source's `calculate_grid_indices`.) -/
def claimUpperLeftIndices (g : Grid) (p : Point) : ℕ × ℕ :=
  ((⌊(p.x - g.domain.left) / g.cellSize⌋).toNat,
   (⌊(g.domain.top - p.y) / g.cellSize⌋).toNat)

/-- On a well-formed plane the conversion is a pure translation to the
lower-left corner: `(x - left, y - bottom)`. -/
theorem convertToUpperLeftOrigin_wf (p : Point) (plane : Rect)
    (hw : plane.left < plane.right) (hh : plane.bottom < plane.top) :
    convertToUpperLeftOrigin p plane =
      ⟨p.x - plane.left, p.y - plane.bottom⟩ := by
  unfold convertToUpperLeftOrigin mapRange Rect.w Rect.h
  have hx : plane.right - plane.left ≠ 0 := sub_ne_zero.2 hw.ne'
  have hy : plane.top - plane.bottom ≠ 0 := sub_ne_zero.2 hh.ne'
  congr 1
  · rw [sub_zero, add_zero, div_mul_cancel₀ _ hx]
  · rw [sub_zero, add_zero, div_mul_cancel₀ _ hy]

theorem idx_g40 : g40.calculateGridIndices ⟨25, 15⟩ = (2, 1) :=
  calculateGridIndices_eq
    (floor_q_eq (n := 2)
      (by norm_num [g40, Grid.new, convertToUpperLeftOrigin, mapRange,
        d40, Rect.w, Rect.h])
      (by norm_num [g40, Grid.new, convertToUpperLeftOrigin, mapRange,
        d40, Rect.w, Rect.h]))
    (floor_q_eq (n := 1)
      (by norm_num [g40, Grid.new, convertToUpperLeftOrigin, mapRange,
        d40, Rect.w, Rect.h])
      (by norm_num [g40, Grid.new, convertToUpperLeftOrigin, mapRange,
        d40, Rect.w, Rect.h]))

/-- **C8** (counterexample): for the domain (0,0)-(40,40) with cell size
10, the source maps `(25, 15)` to cell `(2, 1)` — the row is measured
upward from the bottom edge — while the upper-left-origin convention the
claim describes would give row `⌊(40-15)/10⌋ = 2`. -/
theorem C8_row_convention_counterexample :
    g40.calculateGridIndices ⟨25, 15⟩ = (2, 1) ∧
    claimUpperLeftIndices g40 ⟨25, 15⟩ = (2, 2) ∧
    g40.calculateGridIndices ⟨25, 15⟩ ≠ claimUpperLeftIndices g40 ⟨25, 15⟩ := by
  have h1 : g40.calculateGridIndices ⟨25, 15⟩ = (2, 1) := idx_g40
  have h2 : claimUpperLeftIndices g40 ⟨25, 15⟩ = (2, 2) := by
    unfold claimUpperLeftIndices
    rw [floor_q_eq (n := 2) (by norm_num [g40, Grid.new, d40])
        (by norm_num [g40, Grid.new, d40]),
      floor_q_eq (n := 2) (by norm_num [g40, Grid.new, d40])
        (by norm_num [g40, Grid.new, d40])]
    simp
  exact ⟨h1, h2, by rw [h1, h2]; simp⟩

/-- **C8** (amended): on a well-formed domain the conversion feeding the
grid index computation maps a point to `(x - left, y - bottom)` — a
lower-left-origin space in which y increases upward from the bottom edge —
and the indices are those coordinates divided by the cell size and
floored; in particular, for the domain (0,0)-(40,40) with cell size 10 the
point `(25, 15)` maps to cell column 2 (and row 1, counted from the
bottom). -/
theorem C8_grid_index_lower_left_origin (p : Point) (plane : Rect)
    (hw : plane.left < plane.right) (hh : plane.bottom < plane.top) :
    convertToUpperLeftOrigin p plane =
      ⟨p.x - plane.left, p.y - plane.bottom⟩ ∧
    g40.calculateGridIndices ⟨25, 15⟩ = (2, 1) :=
  ⟨convertToUpperLeftOrigin_wf p plane hw hh, idx_g40⟩

/-- Witness for the amended C8 at the Scenario-D inputs. -/
theorem C8_grid_index_lower_left_origin_witness :
    convertToUpperLeftOrigin ⟨25, 15⟩ d40 = ⟨25, 15⟩ ∧
    g40.calculateGridIndices ⟨25, 15⟩ = (2, 1) := by
  have h := C8_grid_index_lower_left_origin ⟨25, 15⟩ d40
    (by norm_num [d40]) (by norm_num [d40])
  refine ⟨h.1.trans ?_, h.2⟩
  norm_num [d40]

/-! ### C9: `sample` on an exhausted sampler panics -/

/-- **C9**: once `is_finished` holds (the active list is empty), a further
`sample()` call indexes `active_points[0]` out of bounds — a loud panic,
not a silent `None`. -/
theorem C9_sample_after_finished_panics (s : PoissonDiscSampler) (u : ℚ)
    (offs : ℕ → Point) (h : s.isFinished = true) :
    s.sample u offs = .error .vecIndexOutOfBounds := by
  have hempty : s.activePoints = [] := by
    simpa [PoissonDiscSampler.isFinished, List.length_eq_zero] using h
  exact sample_eval_empty hempty

/-- Witness for C9 on a concrete finished sampler. -/
theorem C9_sample_after_finished_panics_witness :
    ({ r := 10, k := 1, grid := gEmpty, activePoints := [] } :
      PoissonDiscSampler).sample 0 offsC = .error .vecIndexOutOfBounds :=
  C9_sample_after_finished_panics _ 0 offsC rfl

/-! ### C10: equivalence of the two `check_point` variants -/

theorem oldCheckPoint_eq_Valid_iff (s : PoissonDiscSampler) (p : Point) :
    oldCheckPoint s p = .Valid ↔ oldCheckPointValid s p := by
  by_cases h : oldCheckPointValid s p <;> simp [oldCheckPoint, h]

/-- **C10**: on identical grid contents and identical cell indexing, the
older variant's per-cell test `!(d < r)` and the newer variant's `d ≥ r`
agree, so the two `check_point` functions return `Valid` on exactly the
same candidates.  (In the real-valued model distances are never NaN, which
is the claim's proviso.) -/
theorem C10_check_point_variants_equivalent (s : PoissonDiscSampler)
    (p : Point) :
    oldCheckPoint s p = .Valid ↔ checkPoint s p = .Valid := by
  have hcell : ∀ o, oldCellFarD s.r p o ↔ cellFarD s.r p o := by
    intro o
    cases o with
    | none => simp [oldCellFarD, cellFarD]
    | some q => simp [oldCellFarD, cellFarD, not_lt]
  have hvalid : oldCheckPointValid s p ↔ checkPointValid s p := by
    unfold oldCheckPointValid checkPointValid
    refine and_congr_right fun _ => ?_
    constructor <;> intro h i hi j hj
    · exact (hcell _).1 (h i hi j hj)
    · exact (hcell _).2 (h i hi j hj)
  rw [oldCheckPoint_eq_Valid_iff, checkPoint_eq_Valid_iff, hvalid]

/-- Witness: the equivalence applied to a concrete sampler and point. -/
theorem C10_check_point_variants_equivalent_witness :
    (oldCheckPoint sA ptC = .Valid ↔ checkPoint sA ptC = .Valid) :=
  C10_check_point_variants_equivalent sA ptC

/-! ### C4: construction performs no validation -/

/-- `newA`, generalized over `k`: the `k` parameter is only stored, never
inspected during construction. -/
theorem newAk (k : ℕ) : PoissonDiscSampler.new d70 10 k (69 / 700) (1 / 2) =
    .ok { r := 10, k := k, grid := gA, activePoints := [ptA] } := by
  have hseed : randomFromDomain d70 (69 / 700) (1 / 2) = ptA := by
    norm_num [randomFromDomain, d70, Rect.w, Rect.h, ptA]
  have h1 : ((cellSizeOf 10 : ℤ) : ℚ) = 7 := by
    rw [cellSizeOf_ten]; norm_num
  unfold PoissonDiscSampler.new
  simp only []
  rw [h1, gEmpty_new, hseed,
    Grid.insert_eval idxA (by norm_num [gEmpty]) (by norm_num [gEmpty])]
  rfl

/-- **C4** (counterexample): constructing with `k = 0` succeeds and
produces a sampler — no precondition is checked at construction. -/
theorem C4_k_zero_produces_sampler :
    PoissonDiscSampler.new d70 10 0 (69 / 700) (1 / 2) =
      .ok { r := 10, k := 0, grid := gA, activePoints := [ptA] } :=
  newAk 0

/-- **C4** (amended): construction performs no explicit validation.  A
zero-width domain does fail at construction — the grid gets zero columns
and inserting the seed indexes the `ndarray` out of bounds, a panic — but
`k = 0` is silently accepted. -/
theorem C4_zero_width_domain_panics (dom : Rect) (r : ℚ) (k : ℕ)
    (u v : ℚ) (hzero : dom.w = 0) (_hcs : 0 < cellSizeOf r) :
    PoissonDiscSampler.new dom r k u v = .error .arrayIndexOutOfBounds := by
  have hgw : (Grid.new ((cellSizeOf r : ℤ) : ℚ) dom).gw = 0 := by
    simp [Grid.new, hzero]
  have hins : (Grid.new ((cellSizeOf r : ℤ) : ℚ) dom).insert
      (randomFromDomain dom u v) = .error .arrayIndexOutOfBounds := by
    unfold Grid.insert
    simp only []
    rw [if_neg]
    rw [hgw]
    simp
  exact new_eval_panic rfl hins

/-- Witness for the amended C4: a degenerate width-0 domain with `r = 10`
fails at construction. -/
theorem C4_zero_width_domain_panics_witness :
    PoissonDiscSampler.new ⟨5, 5, 0, 40⟩ 10 3 (1 / 2) (1 / 2) =
      .error .arrayIndexOutOfBounds :=
  C4_zero_width_domain_panics ⟨5, 5, 0, 40⟩ 10 3 (1 / 2) (1 / 2)
    (by norm_num [Rect.w]) (by rw [cellSizeOf_ten]; norm_num)

/-! ### C6: the first valid candidate is accepted immediately -/

theorem addC : ptA.addP (offsC 0) = ptC := by
  norm_num [Point.addP, ptA, ptC, offsC]

theorem addB : ptC.addP (offsB 0) = ptB := by
  norm_num [Point.addP, ptC, ptB, offsB]

/-- **C6**: if the candidates of attempts `0, …, n-1` are invalid and the
candidate of attempt `n < k` is valid, `sample` returns exactly that
candidate (no later candidate is consulted), inserts it into the grid,
appends it to the active list, returns it as `Some`, and the pivot remains
in the active list. -/
theorem C6_first_valid_accepted (s : PoissonDiscSampler) (u : ℚ)
    (offs : ℕ → Point) (idx n : ℕ) (g : Grid)
    (hidx : (⌊u * (s.activePoints.length : ℚ)⌋).toNat = idx)
    (hlt : idx < s.activePoints.length)
    (hn : n < effAttempts s.k)
    (hinv : ∀ j, j < n →
      ¬checkPointValid s ((s.activePoints.get ⟨idx, hlt⟩).addP (offs j)))
    (hv : checkPointValid s ((s.activePoints.get ⟨idx, hlt⟩).addP (offs n)))
    (hins : s.grid.insert ((s.activePoints.get ⟨idx, hlt⟩).addP (offs n)) =
      .ok g) :
    s.sample u offs =
      .ok (some ((s.activePoints.get ⟨idx, hlt⟩).addP (offs n)),
        { s with grid := g, activePoints := s.activePoints ++
          [(s.activePoints.get ⟨idx, hlt⟩).addP (offs n)] }) ∧
    s.activePoints.get ⟨idx, hlt⟩ ∈ s.activePoints ++
      [(s.activePoints.get ⟨idx, hlt⟩).addP (offs n)] := by
  refine ⟨?_, List.mem_append_left _ (List.get_mem _ _ _)⟩
  have hloop : sampleLoop s (s.activePoints.get ⟨idx, hlt⟩) offs 0
      (effAttempts s.k) =
      some ((s.activePoints.get ⟨idx, hlt⟩).addP (offs n)) := by
    have h := sampleLoop_first (n := n) (i := 0) hn
      (fun j hj => by simpa using hinv j hj) (by simpa using hv)
    simpa using h
  exact sample_eval_accept hidx hlt hloop hins

/-- Witness for C6: the first call of the C1 run accepts its very first
candidate. -/
theorem C6_first_valid_accepted_witness :
    sA.sample 0 offsC = .ok (some ptC, sAC) ∧ ptA ∈ sAC.activePoints := by
  have insC : sA.grid.insert (ptA.addP (offsC 0)) = .ok gAC := by
    show gA.insert (ptA.addP (offsC 0)) = .ok gAC
    rw [addC]
    have hix : gA.calculateGridIndices ptC = (0, 7) := idxC
    rw [Grid.insert_eval (i := 0) (j := 7) hix (by norm_num [gA, gEmpty])
      (by norm_num [gA, gEmpty])]
    rfl
  have h := C6_first_valid_accepted sA 0 offsC 0 0 gAC
    (idx_toNat_eq (n := 0) (by norm_num) (by norm_num))
    (by norm_num [sA])
    (by norm_num [sA, effAttempts])
    (fun j hj => absurd hj (Nat.not_lt_zero j))
    (by show checkPointValid sA (ptA.addP (offsC 0)); rw [addC]; exact validC)
    insC
  obtain ⟨h1, -⟩ := h
  refine ⟨?_, ?_⟩
  · rw [h1]
    simp [sA, sAC, addC]
  · simp [sAC]

/-! ### C7: exhausting all attempts retires the pivot, grid untouched -/

/-- **C7**: if every one of the `k` candidates around the chosen pivot is
invalid, `sample` returns `None` and removes exactly the pivot's entry
from the active list, while the grid — including the pivot's cell — is
left completely unchanged. -/
theorem C7_exhausted_attempts_retire_pivot (s : PoissonDiscSampler)
    (u : ℚ) (offs : ℕ → Point) (idx : ℕ)
    (hidx : (⌊u * (s.activePoints.length : ℚ)⌋).toNat = idx)
    (hlt : idx < s.activePoints.length)
    (hinv : ∀ j, j < effAttempts s.k →
      ¬checkPointValid s ((s.activePoints.get ⟨idx, hlt⟩).addP (offs j))) :
    s.sample u offs = .ok (none, { s with
      activePoints := s.activePoints.eraseIdx idx }) ∧
    ({ s with activePoints := s.activePoints.eraseIdx idx } :
      PoissonDiscSampler).grid = s.grid ∧
    (s.activePoints.eraseIdx idx).length + 1 = s.activePoints.length := by
  refine ⟨?_, rfl, List.length_eraseIdx_add_one hlt⟩
  exact sample_eval_reject hidx hlt
    (sampleLoop_none fun j hj => by simpa using hinv j hj)

/-- The candidate `(6.9, 35)` (the seed itself) fails the validity test on
the two-point sampler: its own cell is occupied by the seed at distance
0. -/
theorem notValidA_on_sAC : ¬checkPointValid sAC ptA := by
  intro h
  obtain ⟨-, hwin⟩ := h
  have hidx : sAC.grid.calculateGridIndices ptA = (0, 5) := idxA
  have h55 := hwin 0 (by rw [hidx]; simp [sAC, gAC, gEmpty, Finset.mem_Icc])
    5 (by rw [hidx]; simp [sAC, gAC, gEmpty, Finset.mem_Icc])
  have hc : sAC.grid.cells 0 5 = some ptA := rfl
  rw [hc] at h55
  simp only [cellFarD] at h55
  have hd : Point.dist ptA ptA = 0 := by
    unfold Point.dist
    rw [show dist2 ptA ptA = 0 by norm_num [dist2]]
    simp
  rw [hd] at h55
  have hr : sAC.r = 10 := rfl
  rw [hr] at h55
  norm_num at h55

/-- Witness for C7: on the two-point sampler, pivoting on `(6.9, 50)`
with every offset `(0, -15)` (candidate `(6.9, 35)`, invalid) rejects and
erases exactly the pivot; the grid is unchanged. -/
theorem C7_exhausted_attempts_retire_pivot_witness :
    sAC.sample (1 / 2) (fun _ => ⟨0, -15⟩) = .ok (none, { sAC with
      activePoints := sAC.activePoints.eraseIdx 1 }) ∧
    ({ sAC with activePoints := sAC.activePoints.eraseIdx 1 } :
      PoissonDiscSampler).grid = sAC.grid ∧
    (sAC.activePoints.eraseIdx 1).length + 1 = sAC.activePoints.length := by
  have haddA : ptC.addP ⟨0, -15⟩ = ptA := by
    norm_num [Point.addP, ptC, ptA]
  exact C7_exhausted_attempts_retire_pivot sAC (1 / 2) (fun _ => ⟨0, -15⟩) 1
    (idx_toNat_eq (n := 1) (by norm_num [sAC]) (by norm_num [sAC]))
    (by norm_num [sAC])
    (fun j _ => by
      show ¬checkPointValid sAC (ptC.addP ⟨0, -15⟩)
      rw [haddA]
      exact notValidA_on_sAC)

/-! ### C3: containment of returned points and of the seed -/

/-- A point the candidate loop accepts lies in the closed domain (the
validity test's first conjunct). -/
theorem checkPointValid_contains {s : PoissonDiscSampler} {p : Point}
    (h : checkPointValid s p) : s.grid.domain.containsP p :=
  h.1

/-- **C3**: every point returned by `sample` lies within the closed
rectangle of the sampler's domain (it passed the `contains` test), and the
seed drawn by `random_from_domain` over a well-formed domain lies within
the closed rectangle for every in-range draw of `gen_range`. -/
theorem C3_returned_points_in_domain :
    (∀ (s : PoissonDiscSampler) (u : ℚ) (offs : ℕ → Point) (p : Point)
      (s1 : PoissonDiscSampler), s.sample u offs = .ok (some p, s1) →
      s.grid.domain.containsP p) ∧
    (∀ (dom : Rect) (u v : ℚ), dom.left ≤ dom.right →
      dom.bottom ≤ dom.top → 0 ≤ u → u ≤ 1 → 0 ≤ v → v ≤ 1 →
      dom.containsP (randomFromDomain dom u v)) := by
  constructor
  · intro s u offs p s1 h
    unfold PoissonDiscSampler.sample at h
    by_cases hlt : (⌊u * (s.activePoints.length : ℚ)⌋).toNat <
        s.activePoints.length
    · rw [dif_pos hlt] at h
      simp only [] at h
      cases hloop : sampleLoop s (s.activePoints.get ⟨_, hlt⟩) offs 0
          (effAttempts s.k) with
      | none => rw [hloop] at h; simp at h
      | some c =>
        rw [hloop] at h
        simp only [] at h
        cases hins : s.grid.insert c with
        | error e => rw [hins] at h; simp at h
        | ok g =>
          rw [hins] at h
          simp only [Except.ok.injEq, Prod.mk.injEq, Option.some.injEq]
            at h
          obtain ⟨rfl, -⟩ := h
          exact checkPointValid_contains (sampleLoop_some_valid hloop)
    · rw [dif_neg hlt] at h
      simp at h
  · intro dom u v h1 h2 hu0 hu1 hv0 hv1
    have hw : 0 ≤ dom.right - dom.left := sub_nonneg.2 h1
    have hh : 0 ≤ dom.top - dom.bottom := sub_nonneg.2 h2
    have hx0 : 0 ≤ u * (dom.right - dom.left) := mul_nonneg hu0 hw
    have hx1 : u * (dom.right - dom.left) ≤ dom.right - dom.left := by
      nlinarith
    have hy0 : 0 ≤ v * (dom.top - dom.bottom) := mul_nonneg hv0 hh
    have hy1 : v * (dom.top - dom.bottom) ≤ dom.top - dom.bottom := by
      nlinarith
    unfold randomFromDomain Rect.containsP Rect.w Rect.h
    dsimp only
    refine ⟨by linarith, by linarith, by linarith, by linarith⟩

/-- Witness for C3: the accepted point `(6.9, 50)` of the C1 run lies in
the domain, and so does a concrete seed draw. -/
theorem C3_returned_points_in_domain_witness :
    sA.grid.domain.containsP ptC ∧
    d70.containsP (randomFromDomain d70 (1 / 2) (1 / 2)) :=
  ⟨C3_returned_points_in_domain.1 sA 0 offsC ptC sAC stepAC,
   C3_returned_points_in_domain.2 d70 (1 / 2) (1 / 2)
     (by norm_num [d70]) (by norm_num [d70]) (by norm_num) (by norm_num)
     (by norm_num) (by norm_num)⟩

/-! ### C2: termination of repeated sampling

The termination measure counts active points plus twice the number of
still-empty grid cells.  A rejecting call removes one active point; an
accepting call adds one active point but fills a previously empty cell
(an accepted candidate's own cell must be empty, because any occupant of
the same cell would be closer than `cellSize·√2 ≤ r` and the 3×3 window
always contains the candidate's own cell). -/

/-- Number of occupied cells of the grid (within its `gw × gh` bounds). -/
def Grid.occupied (g : Grid) : ℕ :=
  ((Finset.range g.gw ×ˢ Finset.range g.gh).filter
    (fun ij => (g.cells ij.1 ij.2).isSome)).card

/-- Termination measure: active points + twice the empty cells. -/
def PoissonDiscSampler.measure (s : PoissonDiscSampler) : ℕ :=
  s.activePoints.length + 2 * (s.grid.gw * s.grid.gh - s.grid.occupied)

/-- The sampler-state invariant maintained by `sample`: the domain is
well-formed, the cell size is positive and satisfies
`cellSize · √2 ≤ r`, and every stored point is inside the domain, within
the array bounds, and stored at its own computed cell. -/
def Inv (s : PoissonDiscSampler) : Prop :=
  s.grid.domain.left < s.grid.domain.right ∧
  s.grid.domain.bottom < s.grid.domain.top ∧
  0 < s.grid.cellSize ∧
  (s.grid.cellSize : ℝ) * Real.sqrt 2 ≤ (s.r : ℝ) ∧
  ∀ i j q, s.grid.cells i j = some q →
    i < s.grid.gw ∧ j < s.grid.gh ∧ s.grid.domain.containsP q ∧
    s.grid.calculateGridIndices q = (i, j)

/-- The driving loop either finished normally or aborted on a panic. -/
def finishedOrPanic : Except RustPanic PoissonDiscSampler → Prop
  | .error _ => True
  | .ok s => s.isFinished = true

/-- Two values whose floored quotients (relative to the same origin and
positive cell size) agree are less than one cell size apart. -/
theorem sq_sub_lt_of_floor_div_eq {x y lo c : ℚ} (hc : 0 < c)
    (h : ⌊(x - lo) / c⌋ = ⌊(y - lo) / c⌋) : (x - y) ^ 2 < c ^ 2 := by
  have hq : ((⌊(x - lo) / c⌋ : ℤ) : ℚ) = ((⌊(y - lo) / c⌋ : ℤ) : ℚ) :=
    congrArg (fun z : ℤ => (z : ℚ)) h
  have hb1 : ((⌊(x - lo) / c⌋ : ℤ) : ℚ) ≤ (x - lo) / c := Int.floor_le _
  have hb2 : (x - lo) / c < ((⌊(x - lo) / c⌋ : ℤ) : ℚ) + 1 :=
    Int.lt_floor_add_one _
  have hb3 : ((⌊(y - lo) / c⌋ : ℤ) : ℚ) ≤ (y - lo) / c := Int.floor_le _
  have hb4 : (y - lo) / c < ((⌊(y - lo) / c⌋ : ℤ) : ℚ) + 1 :=
    Int.lt_floor_add_one _
  have hs1 : (x - lo) / c - (y - lo) / c < 1 := by linarith
  have hs2 : -(1 : ℚ) < (x - lo) / c - (y - lo) / c := by linarith
  have hdd : (x - lo) / c - (y - lo) / c = (x - y) / c := by
    field_simp
  rw [hdd] at hs1 hs2
  have hlt : x - y < c := (div_lt_one hc).1 hs1
  have hgt : -c < x - y := by
    have := (lt_div_iff₀ hc).1 hs2
    linarith
  nlinarith

/-- Two points of a well-formed grid state stored in / mapping to the same
cell are strictly closer than `cellSize·√2` (squared form). -/
theorem same_cell_dist2_lt {g : Grid} (hw : g.domain.left < g.domain.right)
    (hh : g.domain.bottom < g.domain.top) (hc : 0 < g.cellSize)
    {p q : Point} (hp : g.domain.containsP p) (hq : g.domain.containsP q)
    (heq : g.calculateGridIndices p = g.calculateGridIndices q) :
    dist2 p q < 2 * g.cellSize ^ 2 := by
  have hconv : ∀ t : Point, convertToUpperLeftOrigin t g.domain =
      ⟨t.x - g.domain.left, t.y - g.domain.bottom⟩ :=
    fun t => convertToUpperLeftOrigin_wf t g.domain hw hh
  have hix : ∀ t : Point, g.calculateGridIndices t =
      ((⌊(t.x - g.domain.left) / g.cellSize⌋).toNat,
       (⌊(t.y - g.domain.bottom) / g.cellSize⌋).toNat) := by
    intro t
    unfold Grid.calculateGridIndices
    rw [hconv t]
  rw [hix p, hix q, Prod.mk.injEq] at heq
  have hnn : ∀ t : Point, g.domain.containsP t →
      0 ≤ ⌊(t.x - g.domain.left) / g.cellSize⌋ ∧
      0 ≤ ⌊(t.y - g.domain.bottom) / g.cellSize⌋ := by
    intro t ht
    constructor <;> refine Int.floor_nonneg.2 (div_nonneg ?_ hc.le)
    · linarith [ht.1]
    · linarith [ht.2.2.1]
  obtain ⟨hpx, hpy⟩ := hnn p hp
  obtain ⟨hqx, hqy⟩ := hnn q hq
  have hex : ⌊(p.x - g.domain.left) / g.cellSize⌋ =
      ⌊(q.x - g.domain.left) / g.cellSize⌋ := by
    have := heq.1
    omega
  have hey : ⌊(p.y - g.domain.bottom) / g.cellSize⌋ =
      ⌊(q.y - g.domain.bottom) / g.cellSize⌋ := by
    have := heq.2
    omega
  have h1 := sq_sub_lt_of_floor_div_eq hc hex
  have h2 := sq_sub_lt_of_floor_div_eq hc hey
  unfold dist2
  nlinarith

/-- A squared distance below `2·cellSize²` forces the real distance below
`r` whenever `cellSize·√2 ≤ r`. -/
theorem dist_lt_r_of_dist2_lt {q p : Point} {c r : ℚ} (hc : 0 < c)
    (hcr : (c : ℝ) * Real.sqrt 2 ≤ (r : ℝ)) (hd : dist2 q p < 2 * c ^ 2) :
    Point.dist q p < (r : ℝ) := by
  have h1 : Point.dist q p < Real.sqrt ((2 * c ^ 2 : ℚ) : ℝ) :=
    Real.sqrt_lt_sqrt (by exact_mod_cast dist2_nonneg q p)
      (by exact_mod_cast hd)
  have h2 : Real.sqrt ((2 * c ^ 2 : ℚ) : ℝ) = (c : ℝ) * Real.sqrt 2 := by
    push_cast
    rw [show (2 : ℝ) * (c : ℝ) ^ 2 = (c : ℝ) ^ 2 * 2 by ring,
      Real.sqrt_mul (sq_nonneg _), Real.sqrt_sq (by positivity)]
  rw [h2] at h1
  linarith

/-- On an invariant-satisfying state, the cell of a candidate that passed
the validity test is empty (otherwise its occupant would be closer than
`r`, and the 3×3 window always inspects the candidate's own cell). -/
theorem accepted_cell_empty {s : PoissonDiscSampler} (hInv : Inv s)
    {p : Point} (hv : checkPointValid s p)
    (hi : (s.grid.calculateGridIndices p).1 < s.grid.gw)
    (hj : (s.grid.calculateGridIndices p).2 < s.grid.gh) :
    s.grid.cells (s.grid.calculateGridIndices p).1
      (s.grid.calculateGridIndices p).2 = none := by
  obtain ⟨hw, hh, hc, hcr, hcoh⟩ := hInv
  obtain ⟨hcont, hwin⟩ := hv
  cases hcell : s.grid.cells (s.grid.calculateGridIndices p).1
      (s.grid.calculateGridIndices p).2 with
  | none => rfl
  | some q =>
    exfalso
    obtain ⟨-, -, hqcont, hqidx⟩ := hcoh _ _ _ hcell
    have hmem1 : (s.grid.calculateGridIndices p).1 ∈
        Finset.Icc ((s.grid.calculateGridIndices p).1 - 1)
          (min ((s.grid.calculateGridIndices p).1 + 1) (s.grid.gw - 1)) := by
      rw [Finset.mem_Icc]
      exact ⟨Nat.sub_le _ _, le_min (Nat.le_succ _) (by omega)⟩
    have hmem2 : (s.grid.calculateGridIndices p).2 ∈
        Finset.Icc ((s.grid.calculateGridIndices p).2 - 1)
          (min ((s.grid.calculateGridIndices p).2 + 1) (s.grid.gh - 1)) := by
      rw [Finset.mem_Icc]
      exact ⟨Nat.sub_le _ _, le_min (Nat.le_succ _) (by omega)⟩
    have hfar := hwin _ hmem1 _ hmem2
    rw [hcell] at hfar
    simp only [cellFarD] at hfar
    have heq : s.grid.calculateGridIndices p =
        s.grid.calculateGridIndices q := by
      rw [hqidx]
    have hd2 := same_cell_dist2_lt hw hh hc hcont hqcont heq
    have hd2' : dist2 q p < 2 * s.grid.cellSize ^ 2 := by
      have : dist2 q p = dist2 p q := by unfold dist2; ring
      rw [this]
      exact hd2
    have := dist_lt_r_of_dist2_lt hc hcr hd2'
    linarith

/-- The grid with one cell overwritten — the update `Grid.insert` performs
when the index is in range. -/
def Grid.setCell (g : Grid) (i j : ℕ) (p : Point) : Grid :=
  { g with cells := fun a b => if a = i ∧ b = j then some p else g.cells a b }

/-- Filling an empty in-range cell raises the occupied count by one. -/
theorem occupied_setCell {g : Grid} {i j : ℕ} {p : Point}
    (hi : i < g.gw) (hj : j < g.gh) (hempty : g.cells i j = none) :
    (g.setCell i j p).occupied = g.occupied + 1 := by
  unfold Grid.occupied Grid.setCell
  dsimp only
  have hsplit : (Finset.range g.gw ×ˢ Finset.range g.gh).filter
      (fun ij => (if ij.1 = i ∧ ij.2 = j then some p
        else g.cells ij.1 ij.2).isSome) =
      insert (i, j) ((Finset.range g.gw ×ˢ Finset.range g.gh).filter
        (fun ij => (g.cells ij.1 ij.2).isSome)) := by
    ext ⟨a, b⟩
    simp only [Finset.mem_filter, Finset.mem_insert, Finset.mem_product,
      Finset.mem_range, Prod.mk.injEq]
    constructor
    · rintro ⟨⟨ha, hb⟩, hsome⟩
      by_cases hab : a = i ∧ b = j
      · exact Or.inl hab
      · rw [if_neg hab] at hsome
        exact Or.inr ⟨⟨ha, hb⟩, hsome⟩
    · rintro (⟨rfl, rfl⟩ | ⟨⟨ha, hb⟩, hsome⟩)
      · exact ⟨⟨hi, hj⟩, by simp⟩
      · refine ⟨⟨ha, hb⟩, ?_⟩
        by_cases hab : a = i ∧ b = j
        · obtain ⟨rfl, rfl⟩ := hab
          rw [hempty] at hsome
          simp at hsome
        · rw [if_neg hab]
          exact hsome
  rw [hsplit,
    Finset.card_insert_of_not_mem (by simp [Finset.mem_filter, hempty])]

/-- A grid with an empty in-range cell is not fully occupied. -/
theorem occupied_lt_total {g : Grid} {i j : ℕ} (hi : i < g.gw)
    (hj : j < g.gh) (hempty : g.cells i j = none) :
    g.occupied < g.gw * g.gh := by
  unfold Grid.occupied
  have hmem : (i, j) ∈ Finset.range g.gw ×ˢ Finset.range g.gh := by
    simp [Finset.mem_product, hi, hj]
  have hsub : (Finset.range g.gw ×ˢ Finset.range g.gh).filter
      (fun ij => (g.cells ij.1 ij.2).isSome) ⊆
      (Finset.range g.gw ×ˢ Finset.range g.gh).erase (i, j) := by
    intro x hx
    simp only [Finset.mem_filter] at hx
    rw [Finset.mem_erase]
    refine ⟨?_, hx.1⟩
    intro heq
    rw [heq] at hx
    rw [hempty] at hx
    simp at hx
  calc ((Finset.range g.gw ×ˢ Finset.range g.gh).filter
        (fun ij => (g.cells ij.1 ij.2).isSome)).card
      ≤ ((Finset.range g.gw ×ˢ Finset.range g.gh).erase (i, j)).card :=
        Finset.card_le_card hsub
    _ < (Finset.range g.gw ×ˢ Finset.range g.gh).card :=
        Finset.card_erase_lt_of_mem hmem
    _ = g.gw * g.gh := by simp

/-- Eliminator for a successful `Grid.insert`. -/
theorem Grid.insert_ok_elim {g : Grid} {p : Point} {g2 : Grid}
    (h : g.insert p = .ok g2) :
    (g.calculateGridIndices p).1 < g.gw ∧
    (g.calculateGridIndices p).2 < g.gh ∧
    g2 = g.setCell (g.calculateGridIndices p).1
      (g.calculateGridIndices p).2 p := by
  unfold Grid.insert at h
  simp only [] at h
  by_cases hc : (g.calculateGridIndices p).1 < g.gw ∧
      (g.calculateGridIndices p).2 < g.gh
  · rw [if_pos hc] at h
    injection h with h2
    exact ⟨hc.1, hc.2, h2.symm⟩
  · rw [if_neg hc] at h
    exact absurd h (by simp)

/-- Case analysis of a non-panicking `sample` call: either all attempts
failed and exactly the pivot was erased, or some candidate was accepted,
inserted and appended. -/
theorem sample_ok_cases {s : PoissonDiscSampler} {u : ℚ}
    {offs : ℕ → Point} {res : Option Point} {s1 : PoissonDiscSampler}
    (h : s.sample u offs = .ok (res, s1)) :
    ∃ (idx : ℕ) (hlt : idx < s.activePoints.length),
      (⌊u * (s.activePoints.length : ℚ)⌋).toNat = idx ∧
      ((res = none ∧
        s1 = { s with activePoints := s.activePoints.eraseIdx idx } ∧
        sampleLoop s (s.activePoints.get ⟨idx, hlt⟩) offs 0
          (effAttempts s.k) = none) ∨
       (∃ c g2, res = some c ∧
         sampleLoop s (s.activePoints.get ⟨idx, hlt⟩) offs 0
           (effAttempts s.k) = some c ∧
         s.grid.insert c = .ok g2 ∧
         s1 = { s with grid := g2, activePoints := s.activePoints ++ [c] })) := by
  unfold PoissonDiscSampler.sample at h
  by_cases hlt : (⌊u * (s.activePoints.length : ℚ)⌋).toNat <
      s.activePoints.length
  · rw [dif_pos hlt] at h
    simp only [] at h
    refine ⟨_, hlt, rfl, ?_⟩
    cases hloop : sampleLoop s (s.activePoints.get ⟨_, hlt⟩) offs 0
        (effAttempts s.k) with
    | none =>
      rw [hloop] at h
      simp only [Except.ok.injEq, Prod.mk.injEq] at h
      exact Or.inl ⟨h.1.symm, h.2.symm, rfl⟩
    | some c =>
      rw [hloop] at h
      simp only [] at h
      cases hins : s.grid.insert c with
      | error e => rw [hins] at h; simp at h
      | ok g2 =>
        rw [hins] at h
        simp only [Except.ok.injEq, Prod.mk.injEq] at h
        exact Or.inr ⟨c, g2, h.1.symm, rfl, hins, h.2.symm⟩
  · rw [dif_neg hlt] at h
    simp at h

/-- One non-panicking `sample` call preserves the invariant and strictly
decreases the termination measure. -/
theorem sample_step {s : PoissonDiscSampler} (hInv : Inv s) {u : ℚ}
    {offs : ℕ → Point} {res : Option Point} {s1 : PoissonDiscSampler}
    (h : s.sample u offs = .ok (res, s1)) :
    Inv s1 ∧ s1.measure < s.measure := by
  obtain ⟨idx, hlt, -, hcase⟩ := sample_ok_cases h
  rcases hcase with ⟨-, rfl, -⟩ | ⟨c, g2, -, hloop, hins, rfl⟩
  · refine ⟨hInv, ?_⟩
    have hlen := List.length_eraseIdx_add_one hlt
    unfold PoissonDiscSampler.measure
    dsimp only
    omega
  · have hvalid := sampleLoop_some_valid hloop
    obtain ⟨hbi, hbj, hg2⟩ := Grid.insert_ok_elim hins
    have hempty := accepted_cell_empty hInv hvalid hbi hbj
    subst hg2
    constructor
    · obtain ⟨hw, hh, hc, hcr, hcoh⟩ := hInv
      refine ⟨hw, hh, hc, hcr, ?_⟩
      intro i j q hcell
      simp only [Grid.setCell] at hcell
      by_cases hab : i = (s.grid.calculateGridIndices c).1 ∧
          j = (s.grid.calculateGridIndices c).2
      · obtain ⟨rfl, rfl⟩ := hab
        rw [if_pos ⟨rfl, rfl⟩] at hcell
        injection hcell with hq
        subst hq
        refine ⟨hbi, hbj, hvalid.1, ?_⟩
        show s.grid.calculateGridIndices c =
          ((s.grid.calculateGridIndices c).1,
           (s.grid.calculateGridIndices c).2)
        exact Prod.mk.eta.symm
      · rw [if_neg hab] at hcell
        exact hcoh i j q hcell
    · have hocc := occupied_setCell (p := c) hbi hbj hempty
      have hoccLt := occupied_lt_total hbi hbj hempty
      unfold PoissonDiscSampler.measure
      dsimp only
      rw [hocc, List.length_append]
      simp only [Grid.setCell, List.length_singleton]
      omega

theorem runFrom_succ_error {rands : ℕ → ℚ × (ℕ → Point)}
    {start fuel : ℕ} {s : PoissonDiscSampler} {e : RustPanic}
    (hnf : s.isFinished = false)
    (hs : s.sample (rands start).1 (rands start).2 = .error e) :
    runFrom rands start (fuel + 1) s = .error e := by
  conv_lhs => unfold runFrom
  rw [hnf, hs]
  simp

/-- Fuel-indexed termination: any invariant-satisfying state finishes or
panics within `measure` further calls. -/
theorem terminates_aux : ∀ (fuel : ℕ) (s : PoissonDiscSampler)
    (rands : ℕ → ℚ × (ℕ → Point)) (start : ℕ), Inv s →
    s.measure ≤ fuel → finishedOrPanic (runFrom rands start fuel s) := by
  intro fuel
  induction fuel with
  | zero =>
    intro s rands start _hInv hle
    have hfin : s.isFinished = true := by
      have hlen : s.activePoints.length = 0 := by
        unfold PoissonDiscSampler.measure at hle
        omega
      simp [PoissonDiscSampler.isFinished, hlen]
    exact hfin
  | succ n ih =>
    intro s rands start hInv hle
    by_cases hfin : s.isFinished = true
    · rw [runFrom_finished hfin]
      exact hfin
    · have hnf : s.isFinished = false := by
        rw [← Bool.not_eq_true]
        exact hfin
      cases hs : s.sample (rands start).1 (rands start).2 with
      | error e =>
        rw [runFrom_succ_error hnf hs]
        trivial
      | ok pr =>
        obtain ⟨res, s1⟩ := pr
        rw [runFrom_succ_step hnf hs]
        obtain ⟨hInv1, hlt⟩ := sample_step hInv hs
        exact ih s1 rands (start + 1) hInv1 (by omega)

/-- **C2** (amended): from any state satisfying the sampler invariant
(as established by construction over a well-formed domain with
`cellSize ≥ 1`), repeated `sample` calls reach `is_finished = true` — or
abort with a grid-insert panic on a boundary point — within
`activePoints.length + 2·(unoccupied-cell count)` calls; in particular
the number of calls is finite, but it is NOT bounded by the occupied-cell
count (each accepting call fills one previously empty cell yet a retiring
call fills none). -/
theorem C2_terminates_or_panics (s : PoissonDiscSampler)
    (rands : ℕ → ℚ × (ℕ → Point)) (start : ℕ) (hInv : Inv s) :
    finishedOrPanic (runFrom rands start s.measure s) :=
  terminates_aux s.measure s rands start hInv le_rfl

/-! ### A concrete run refuting the claimed call-count bound

Three `sample` calls are needed to reach `is_finished`, while only two
grid cells ever become occupied: seed `(35, 35)`; call 1 accepts
`(35, 49)`; call 2 (pivot seed, candidate `(35, 50)`, too close to
`(35, 49)`) retires the seed; call 3 (pivot `(35, 49)`, candidate
`(35, 35)`, too close to the seed) retires the last active point. -/

/-- Seed of the bound-refuting run. -/
def ptS : Point := ⟨35, 35⟩

/-- The single point accepted in the bound-refuting run. -/
def ptT : Point := ⟨35, 49⟩

/-- Grid holding only the seed (cell `(5, 5)`). -/
def gS : Grid :=
  { gEmpty with cells := fun a b =>
      if a = 5 ∧ b = 5 then some ptS else none }

/-- Grid holding the seed and `(35, 49)` (cell `(5, 7)`). -/
def gST : Grid :=
  { gEmpty with cells := fun a b =>
      if a = 5 ∧ b = 7 then some ptT else gS.cells a b }

/-- State after construction. -/
def tS : PoissonDiscSampler :=
  { r := 10, k := 1, grid := gS, activePoints := [ptS] }

/-- State after call 1 (accept). -/
def tST : PoissonDiscSampler :=
  { r := 10, k := 1, grid := gST, activePoints := [ptS, ptT] }

/-- State after call 2 (reject, seed retired). -/
def tT : PoissonDiscSampler :=
  { r := 10, k := 1, grid := gST, activePoints := [ptT] }

/-- State after call 3 (reject, finished). -/
def tFin : PoissonDiscSampler :=
  { r := 10, k := 1, grid := gST, activePoints := [] }

/-- Oracle of the bound-refuting run: all pivot draws are 0; the offsets
are `(0, 14)`, `(0, 15)`, `(0, -14)` (magnitudes 14, 15, 14 — all within
`[r, 2r] = [10, 20]`). -/
def rands3 : ℕ → ℚ × (ℕ → Point) := fun n =>
  if n = 0 then (0, fun _ => ⟨0, 14⟩)
  else if n = 1 then (0, fun _ => ⟨0, 15⟩)
  else (0, fun _ => ⟨0, -14⟩)

theorem idxS : gEmpty.calculateGridIndices ptS = (5, 5) :=
  calculateGridIndices_eq
    (floor_q_eq (n := 5)
      (by norm_num [gEmpty, convertToUpperLeftOrigin, mapRange, d70,
        Rect.w, Rect.h, ptS])
      (by norm_num [gEmpty, convertToUpperLeftOrigin, mapRange, d70,
        Rect.w, Rect.h, ptS]))
    (floor_q_eq (n := 5)
      (by norm_num [gEmpty, convertToUpperLeftOrigin, mapRange, d70,
        Rect.w, Rect.h, ptS])
      (by norm_num [gEmpty, convertToUpperLeftOrigin, mapRange, d70,
        Rect.w, Rect.h, ptS]))

theorem idxT : gEmpty.calculateGridIndices ptT = (5, 7) :=
  calculateGridIndices_eq
    (floor_q_eq (n := 5)
      (by norm_num [gEmpty, convertToUpperLeftOrigin, mapRange, d70,
        Rect.w, Rect.h, ptT])
      (by norm_num [gEmpty, convertToUpperLeftOrigin, mapRange, d70,
        Rect.w, Rect.h, ptT]))
    (floor_q_eq (n := 7)
      (by norm_num [gEmpty, convertToUpperLeftOrigin, mapRange, d70,
        Rect.w, Rect.h, ptT])
      (by norm_num [gEmpty, convertToUpperLeftOrigin, mapRange, d70,
        Rect.w, Rect.h, ptT]))

theorem idx50 : gEmpty.calculateGridIndices ⟨35, 50⟩ = (5, 7) :=
  calculateGridIndices_eq
    (floor_q_eq (n := 5)
      (by norm_num [gEmpty, convertToUpperLeftOrigin, mapRange, d70,
        Rect.w, Rect.h])
      (by norm_num [gEmpty, convertToUpperLeftOrigin, mapRange, d70,
        Rect.w, Rect.h]))
    (floor_q_eq (n := 7)
      (by norm_num [gEmpty, convertToUpperLeftOrigin, mapRange, d70,
        Rect.w, Rect.h])
      (by norm_num [gEmpty, convertToUpperLeftOrigin, mapRange, d70,
        Rect.w, Rect.h]))

/-- Call 1's candidate `(35, 49)` is valid on the seeded state. -/
theorem validT : checkPointValid tS ptT := by
  refine ⟨by norm_num [tS, gS, gEmpty, d70, Rect.containsP, ptT], ?_⟩
  have hidx : tS.grid.calculateGridIndices ptT = (5, 7) := idxT
  have hgw : tS.grid.gw = 10 := rfl
  have hgh : tS.grid.gh = 10 := rfl
  rw [hidx, hgw, hgh]
  intro i hi j hj
  simp only [Finset.mem_Icc] at hi hj
  norm_num at hi hj
  have hcells : tS.grid.cells i j = none := by
    have h : tS.grid.cells = gS.cells := rfl
    rw [h]
    simp only [gS]
    rw [if_neg (by omega)]
  rw [hcells]
  trivial

/-- Call 2's candidate `(35, 50)` is invalid on the two-point state: its
own cell holds `(35, 49)` at distance 1. -/
theorem invalid50 : ¬checkPointValid tST (⟨35, 50⟩ : Point) := by
  intro h
  obtain ⟨-, hwin⟩ := h
  have hidx : tST.grid.calculateGridIndices ⟨35, 50⟩ = (5, 7) := idx50
  have h57 := hwin 5 (by rw [hidx]; simp [tST, gST, gEmpty, Finset.mem_Icc])
    7 (by rw [hidx]; simp [tST, gST, gEmpty, Finset.mem_Icc])
  have hc : tST.grid.cells 5 7 = some ptT := rfl
  rw [hc] at h57
  simp only [cellFarD] at h57
  have hd : Point.dist ptT ⟨35, 50⟩ = 1 := by
    unfold Point.dist
    rw [show dist2 ptT ⟨35, 50⟩ = 1 by norm_num [dist2, ptT]]
    simp
  rw [hd] at h57
  have hr : tST.r = 10 := rfl
  rw [hr] at h57
  norm_num at h57

/-- Call 3's candidate `(35, 35)` is invalid on the retired state: its
own cell holds the seed at distance 0. -/
theorem invalidS : ¬checkPointValid tT ptS := by
  intro h
  obtain ⟨-, hwin⟩ := h
  have hidx : tT.grid.calculateGridIndices ptS = (5, 5) := idxS
  have h55 := hwin 5 (by rw [hidx]; simp [tT, gST, gEmpty, Finset.mem_Icc])
    5 (by rw [hidx]; simp [tT, gST, gEmpty, Finset.mem_Icc])
  have hc : tT.grid.cells 5 5 = some ptS := rfl
  rw [hc] at h55
  simp only [cellFarD] at h55
  have hd : Point.dist ptS ptS = 0 := by
    unfold Point.dist
    rw [show dist2 ptS ptS = 0 by norm_num [dist2]]
    simp
  rw [hd] at h55
  have hr : tT.r = 10 := rfl
  rw [hr] at h55
  norm_num at h55

theorem addT : ptS.addP ⟨0, 14⟩ = ptT := by
  norm_num [Point.addP, ptS, ptT]

/-- Call 1: accept `(35, 49)`. -/
theorem stepST : tS.sample 0 (fun _ => (⟨0, 14⟩ : Point)) =
    .ok (some ptT, tST) := by
  have hfuel : effAttempts tS.k = 0 + 1 := rfl
  have hloop : sampleLoop tS ptS (fun _ => (⟨0, 14⟩ : Point)) 0
      (effAttempts tS.k) = some ptT := by
    rw [hfuel, sampleLoop_succ_valid (by rw [addT]; exact validT), addT]
  have hins : tS.grid.insert ptT = .ok gST := by
    show gS.insert ptT = .ok gST
    have hix : gS.calculateGridIndices ptT = (5, 7) := idxT
    rw [Grid.insert_eval (i := 5) (j := 7) hix (by norm_num [gS, gEmpty])
      (by norm_num [gS, gEmpty])]
    rfl
  have h := sample_eval_accept (s := tS) (u := 0)
    (idx_toNat_eq (n := 0) (by norm_num) (by norm_num))
    (by norm_num [tS]) hloop hins
  exact h

theorem add50 : ptS.addP ⟨0, 15⟩ = (⟨35, 50⟩ : Point) := by
  norm_num [Point.addP, ptS]

/-- Call 2: reject, retiring the seed. -/
theorem stepTT : tST.sample 0 (fun _ => (⟨0, 15⟩ : Point)) =
    .ok (none, tT) := by
  have hfuel : effAttempts tST.k = 0 + 1 := rfl
  have hloop : sampleLoop tST ptS (fun _ => (⟨0, 15⟩ : Point)) 0
      (effAttempts tST.k) = none := by
    rw [hfuel, sampleLoop_succ_invalid (by rw [add50]; exact invalid50)]
    rfl
  have h := sample_eval_reject (s := tST) (u := 0)
    (idx_toNat_eq (n := 0) (by norm_num) (by norm_num))
    (by norm_num [tST]) hloop
  exact h

theorem addS : ptT.addP ⟨0, -14⟩ = ptS := by
  norm_num [Point.addP, ptS, ptT]

/-- Call 3: reject, retiring the last active point. -/
theorem stepFin : tT.sample 0 (fun _ => (⟨0, -14⟩ : Point)) =
    .ok (none, tFin) := by
  have hfuel : effAttempts tT.k = 0 + 1 := rfl
  have hloop : sampleLoop tT ptT (fun _ => (⟨0, -14⟩ : Point)) 0
      (effAttempts tT.k) = none := by
    rw [hfuel, sampleLoop_succ_invalid (by rw [addS]; exact invalidS)]
    rfl
  have h := sample_eval_reject (s := tT) (u := 0)
    (idx_toNat_eq (n := 0) (by norm_num) (by norm_num))
    (by norm_num [tT]) hloop
  exact h

theorem occ_gEmpty : gEmpty.occupied = 0 := by
  simp [Grid.occupied, gEmpty]

theorem occ_gS : gS.occupied = 1 := by
  have h : (gEmpty.setCell 5 5 ptS).occupied = gEmpty.occupied + 1 :=
    occupied_setCell (by norm_num [gEmpty]) (by norm_num [gEmpty]) rfl
  rw [occ_gEmpty] at h
  exact h

theorem occ_gST : gST.occupied = 2 := by
  have h : (gS.setCell 5 7 ptT).occupied = gS.occupied + 1 :=
    occupied_setCell (by norm_num [gS, gEmpty]) (by norm_num [gS, gEmpty])
      rfl
  rw [occ_gS] at h
  exact h

/-- **C2** (counterexample): a run with realizable random draws needs
three `sample` calls to reach `is_finished` although only two grid cells
ever become occupied — the claimed bound "number of calls ≤ occupied-cell
count" is false.  (Termination itself, with the corrected bound, is the
amended theorem.) -/
theorem C2_call_count_exceeds_occupied_cells :
    runFrom rands3 0 2 tS = .ok tT ∧ tT.isFinished = false ∧
    runFrom rands3 0 3 tS = .ok tFin ∧ tFin.isFinished = true ∧
    tFin.grid.occupied = 2 ∧
    (tS.r ^ 2 ≤ dist2 ⟨0, 0⟩ ⟨0, 14⟩ ∧
      dist2 ⟨0, 0⟩ ⟨0, 14⟩ ≤ (2 * tS.r) ^ 2) ∧
    (tST.r ^ 2 ≤ dist2 ⟨0, 0⟩ ⟨0, 15⟩ ∧
      dist2 ⟨0, 0⟩ ⟨0, 15⟩ ≤ (2 * tST.r) ^ 2) ∧
    (tT.r ^ 2 ≤ dist2 ⟨0, 0⟩ ⟨0, -14⟩ ∧
      dist2 ⟨0, 0⟩ ⟨0, -14⟩ ≤ (2 * tT.r) ^ 2) := by
  have h1 : runFrom rands3 0 2 tS = .ok tT := by
    rw [runFrom_succ_step
        (show tS.isFinished = false from rfl) stepST,
      runFrom_succ_step
        (show tST.isFinished = false from rfl) stepTT]
    rfl
  have h2 : runFrom rands3 0 3 tS = .ok tFin := by
    rw [runFrom_succ_step
        (show tS.isFinished = false from rfl) stepST,
      runFrom_succ_step
        (show tST.isFinished = false from rfl) stepTT,
      runFrom_succ_step
        (show tT.isFinished = false from rfl) stepFin]
    rfl
  refine ⟨h1, rfl, h2, rfl, occ_gST, ?_, ?_, ?_⟩
  · constructor <;> norm_num [dist2, tS]
  · constructor <;> norm_num [dist2, tST]
  · constructor <;> norm_num [dist2, tT]

/-- The construction-time invariant holds for the concrete seeded state
`tS`. -/
theorem inv_tS : Inv tS := by
  refine ⟨by norm_num [tS, gS, gEmpty, d70],
    by norm_num [tS, gS, gEmpty, d70],
    by norm_num [tS, gS, gEmpty], ?_, ?_⟩
  · have h7 : (tS.grid.cellSize : ℝ) = 7 := by norm_num [tS, gS, gEmpty]
    have hr : (tS.r : ℝ) = 10 := by norm_num [tS]
    rw [h7, hr]
    have hs : Real.sqrt 2 ≤ 10 / 7 := by
      rw [Real.sqrt_le_left (by norm_num)]
      norm_num
    nlinarith [Real.sqrt_nonneg 2]
  · intro i j q hcell
    have hc : tS.grid.cells = gS.cells := rfl
    rw [hc] at hcell
    simp only [gS] at hcell
    by_cases hij : i = 5 ∧ j = 5
    · obtain ⟨rfl, rfl⟩ := hij
      rw [if_pos ⟨rfl, rfl⟩] at hcell
      injection hcell with hq
      subst hq
      refine ⟨by norm_num [tS, gS, gEmpty], by norm_num [tS, gS, gEmpty],
        by norm_num [tS, gS, gEmpty, d70, Rect.containsP, ptS], ?_⟩
      exact idxS
    · rw [if_neg hij] at hcell
      simp at hcell

/-- Witness for the amended C2 at the concrete state `tS`. -/
theorem C2_terminates_or_panics_witness :
    finishedOrPanic (runFrom rands3 0 tS.measure tS) :=
  C2_terminates_or_panics tS rands3 0 inv_tS

end Doodles
